import Mathlib

/-!
# Heltec WiFi Kit 32 OLED usermod

A verification development for `usermods/heltec_wifi_kit_32_OLED/usermod.cpp`.

Conventions of the embedding.

* Text (`String`, `const char*`) is a `List Char`: the characters of the C string
  before its terminating NUL, so `strlen_P` is the length of the list.
* `uint8_t` values are naturals below 256; an increment is taken modulo 256.
* `long` and `unsigned long` are 32 bits wide on the ESP32 and the ESP8266.
  A `long` is an `Int`, an `unsigned long` a `Nat`, and the conversions between
  them are written out (`toLong`, `toULong`).
* The global variables of the file are the fields of `State`; a function that
  mutates them is a function from `State` to `State`.
* What the host firmware offers at run time (`WiFi`, `apActive`, `bri`, `strip`) is
  read from a `Host` record. What is fixed when the firmware is built is a `Build`
  record: the name tables `JSON_mode_names` and `JSON_palette_names`, and whether
  the macro `ESP8266` is defined, which selects one of the two branches of
  `updateInfo`. The board this usermod is written for is an ESP32, where the macro
  is not defined.
* Each call of `millis()` in `userLoop` has its own reading in a `Millis` record;
  `Millis.const now` is the clock that reads `now` at every call.
* The calls made on the `oled` object are returned as a list of `OledCmd`; the
  debug output of `DEBUG_PRINTLN` is left out.
-/

namespace HeltecOLED

/-! ## Indexed-string extractor -/

/-- Local variables of `getStringFromJSON` that live across loop iterations. -/
structure ScanState where
  jsonItem : List Char
  qComma : Nat
  insideQuotes : Bool
  printedChars : Nat
deriving DecidableEq, Repr

/-- The `for` loop of `getStringFromJSON` over the characters still to be read.
Every `continue` of the `switch` goes on with the rest of the buffer; the code
after the `switch` is reached only when a character was appended, and there
`break` stops the scan. -/
def scanLoop (index : Nat) : List Char → ScanState → ScanState
  | [], st => st
  | singleJsonSymbol :: rest, st =>
    if singleJsonSymbol = '"' then
      scanLoop index rest { st with insideQuotes := !st.insideQuotes }
    else if singleJsonSymbol = '[' ∨ singleJsonSymbol = ']' then
      scanLoop index rest st
    else
      -- case ',' increments and falls through to default
      let qComma := if singleJsonSymbol = ',' then (st.qComma + 1) % 256 else st.qComma
      if !st.insideQuotes || qComma != index then
        scanLoop index rest { st with qComma := qComma }
      else
        let st' : ScanState :=
          { st with
            qComma := qComma
            jsonItem := st.jsonItem ++ [singleJsonSymbol]
            printedChars := (st.printedChars + 1) % 256 }
        if qComma > index then st' else scanLoop index rest st'

/-- Embedding of `getStringFromJSON(const char* JSONArray, uint8_t index)`. -/
def getStringFromJSON (JSONArray : List Char) (index : Nat) : List Char :=
  (scanLoop index JSONArray
    { jsonItem := [], qComma := 0, insideQuotes := false, printedChars := 0 }).jsonItem

/-! ## Quality estimator -/

/-- Conversion of an integer to `uint8_t`. -/
def toUInt8 (x : Int) : Nat := (x % 256).toNat

/-- The local `quality` of `getWifiQuality` after the dBm conversion. -/
def wifiQualityLong (rssi : Int) : Int :=
  if rssi ≤ -100 then 0
  else if rssi ≥ -50 then 100
  else 2 * (rssi + 100)

/-- Embedding of `getWifiQuality(long rssi)`: `value` is assigned 100 or 0 by the two
guards and is then overwritten by the cast of `quality`, which is what is returned. -/
def getWifiQuality (rssi : Int) : Nat :=
  let quality := wifiQualityLong rssi
  let value : Nat := 0
  let value : Nat := if quality > 100 then 100 else value
  let value : Nat := if quality < 0 then 0 else value
  -- value = (uint8_t) quality: the assignment discards what the guards stored
  let _overwritten := value
  toUInt8 quality

/-! ## Host interface, display commands and global state -/

/-- The four bytes of an `IPAddress`. -/
structure IPAddress where
  b0 : Nat
  b1 : Nat
  b2 : Nat
  b3 : Nat
deriving DecidableEq, Repr

/-- What `updateInfo` reads from the host firmware. -/
structure Host where
  /-- The test `WiFi.status() == WL_CONNECTED`. -/
  connected : Bool
  /-- The value of `WiFi.SSID()`. -/
  SSID : List Char
  /-- The value of `WiFi.softAPSSID()`. -/
  softAPSSID : List Char
  apActive : Bool
  /-- The value of `WiFi.RSSI()`. -/
  RSSI : Int
  /-- The value of `WiFi.localIP()`. -/
  localIP : IPAddress
  bri : Nat
  /-- The value of `strip.getMode()`. -/
  mode : Nat
  /-- The value of `strip.getSegment(0).palette`. -/
  palette : Nat
deriving DecidableEq, Repr

/-- Compile-time facts the file depends on and does not define: whether the macro
`ESP8266` is defined, the two name tables of the host, and the text width function
of the display library. -/
structure Build where
  ESP8266 : Bool
  JSON_mode_names : List Char
  JSON_palette_names : List Char
  getStrWidth : List Char → Nat

/-- Calls made on the `oled` object. -/
inductive OledCmd where
  | begin
  | setFont
  | setFontRefHeightExtendedText
  | setDrawColor (c : Nat)
  | setFontPosTop
  | setFontDirection (d : Nat)
  | clearBuffer
  /-- The arguments are the values of the argument expressions of the call. -/
  | drawStr (x : Int) (y : Int) (text : List Char)
  | sendBuffer
  | sleepOn
  | sleepOff
deriving DecidableEq, Repr

/-- The global variables of the file. -/
structure State where
  oled_firstRun : Bool
  oled_redrawRequired : Bool
  oled_lastRedrawTime : Int
  oled_lastUpdateTime : Int
  oled_displayIsAsleep : Bool
  oled_knownSSID : List Char
  oled_knownRSSI : Int
  oled_knownIP : IPAddress
  oled_knownBrightness : Nat
  oled_knownEffectModeIndex : Nat
  oled_knownEffectPaletteIndex : Nat
  oled_knownEffectModeName : List Char
  oled_knownEffectPaletteName : List Char
deriving DecidableEq, Repr

/-- The globals as C++ initialises them before `userSetup` runs: zero, `false`,
the empty `String` and the address 0.0.0.0. -/
def bootState : State :=
  { oled_firstRun := false
    oled_redrawRequired := false
    oled_lastRedrawTime := 0
    oled_lastUpdateTime := 0
    oled_displayIsAsleep := false
    oled_knownSSID := []
    oled_knownRSSI := 0
    oled_knownIP := ⟨0, 0, 0, 0⟩
    oled_knownBrightness := 0
    oled_knownEffectModeIndex := 0
    oled_knownEffectPaletteIndex := 0
    oled_knownEffectModeName := []
    oled_knownEffectPaletteName := [] }

def OLED_UPDATE_RATE_MS : Nat := 1000

def OLED_REDRAW_RATE_MS : Nat := 2000

def OLED_DISPLAY_SLEEP_TIMEOUT_MS : Nat := 2*60*1000

/-! ## 32-bit time arithmetic -/

/-- Conversion of an `unsigned long` to `long` (two's complement, 32 bits). -/
def toLong (x : Nat) : Int :=
  if x % 4294967296 < 2147483648 then ((x % 4294967296 : Nat) : Int)
  else ((x % 4294967296 : Nat) : Int) - 4294967296

/-- Conversion of a `long` to `unsigned long`. -/
def toULong (x : Int) : Nat := (x % 4294967296).toNat

/-- The expression `millis() - t` for a `long` variable `t`: `t` is converted to
`unsigned long` and the subtraction wraps modulo 2^32. -/
def elapsed (now : Nat) (t : Int) : Nat :=
  (now % 4294967296 + 4294967296 - toULong t) % 4294967296

/-- The values returned by the calls of `millis()` in `userLoop`, one field for each
call in the order of the source. -/
structure Millis where
  updateCheck : Nat
  updateStamp : Nat
  sleepCheck : Nat
  redrawCheck : Nat
  redrawStamp : Nat
deriving DecidableEq, Repr

/-- A clock that reads the same value at every call of one `userLoop`. -/
def Millis.const (now : Nat) : Millis := ⟨now, now, now, now, now⟩

/-! ## Name lookup -/

def getEffectPaletteName (b : Build) (effectPaletteIndex : Nat) : List Char :=
  getStringFromJSON b.JSON_palette_names effectPaletteIndex

def getEffectModeName (b : Build) (effectModeIndex : Nat) : List Char :=
  getStringFromJSON b.JSON_mode_names effectModeIndex

/-! ## Info refresher -/

/-- The local `currentSSID` of `updateInfo` once the connection test is done. When
`ESP8266` is defined the connected branch does not assign it, so it keeps the
empty `String` it was constructed with. -/
def currentSSID (b : Build) (h : Host) : List Char :=
  if h.connected then
    if b.ESP8266 then [] else h.SSID
  else "~NOT CONNECTED~".toList

/-- The local `currentIP` of `updateInfo`. -/
def currentIP (h : Host) : IPAddress :=
  if h.apActive then ⟨0, 0, 0, 0⟩ else h.localIP

/-- Embedding of `updateInfo()`. -/
def updateInfo (b : Build) (h : Host) (s : State) : State :=
  -- with ESP8266 defined the connected branch writes oled_knownSSID itself
  let s : State :=
    if h.connected && b.ESP8266 then
      { s with oled_knownSSID := if h.apActive then h.softAPSSID else h.SSID }
    else s
  let s : State :=
    if s.oled_firstRun || currentSSID b h != s.oled_knownSSID then
      { s with oled_knownSSID := currentSSID b h, oled_redrawRequired := true }
    else s
  let s : State :=
    if s.oled_firstRun || h.RSSI != s.oled_knownRSSI then
      { s with oled_knownRSSI := h.RSSI }
    else s
  let s : State :=
    if s.oled_firstRun || currentIP h != s.oled_knownIP then
      { s with oled_knownIP := currentIP h, oled_redrawRequired := true }
    else s
  let s : State :=
    if s.oled_firstRun || h.bri != s.oled_knownBrightness then
      { s with oled_knownBrightness := h.bri, oled_redrawRequired := true }
    else s
  let s : State :=
    if s.oled_firstRun || h.mode != s.oled_knownEffectModeIndex then
      { s with
        oled_knownEffectModeIndex := h.mode
        oled_knownEffectModeName := getEffectModeName b h.mode
        oled_redrawRequired := true }
    else s
  let s : State :=
    if s.oled_firstRun || h.palette != s.oled_knownEffectPaletteIndex then
      { s with
        oled_knownEffectPaletteIndex := h.palette
        oled_knownEffectPaletteName := getEffectPaletteName b h.palette
        oled_redrawRequired := true }
    else s
  if s.oled_firstRun then { s with oled_firstRun := false } else s

/-! ## Renderer -/

/-- Decimal digits, as `%d` prints a non-negative value. -/
def decimal (n : Nat) : List Char := (Nat.repr n).toList

/-- The text of `IPAddress::toString()`. -/
def IPAddress.toString (ip : IPAddress) : List Char :=
  decimal ip.b0 ++ ('.' :: decimal ip.b1) ++ ('.' :: decimal ip.b2) ++ ('.' :: decimal ip.b3)

/-- Embedding of `oled_drawDisplay()`: the display calls it makes and the state it
leaves. Each `sprintf` into `chBuffer` is the text it formats; `toCharArray` with a
size of 80 copies at most 79 characters. -/
def oled_drawDisplay (s : State) : State × List OledCmd :=
  let chIP := (IPAddress.toString s.oled_knownIP).take 79
  ({ s with oled_redrawRequired := false },
   [ OledCmd.clearBuffer,
     OledCmd.drawStr 0 0 ("Wifi:".toList ++ s.oled_knownSSID),
     OledCmd.drawStr 0 10
       ("Signal strength:".toList ++ decimal (getWifiQuality s.oled_knownRSSI) ++ "%".toList),
     OledCmd.drawStr 0 20 ("IP:".toList ++ chIP),
     OledCmd.drawStr 0 30 ("Mode:".toList ++ s.oled_knownEffectModeName),
     OledCmd.drawStr 0 40 ("Palette:".toList ++ s.oled_knownEffectPaletteName),
     OledCmd.drawStr 0 50 ("Brightness:".toList ++ decimal s.oled_knownBrightness),
     OledCmd.sendBuffer ])

/-! ## Entry points -/

/-- Embedding of `userSetup()`. -/
def userSetup (b : Build) (s : State) : State × List OledCmd :=
  let chBuffer := "WLED Starting...".toList
  ({ s with
      oled_firstRun := true
      oled_redrawRequired := true
      oled_displayIsAsleep := false
      oled_lastRedrawTime := 0
      oled_lastUpdateTime := 0
      oled_knownBrightness := 0
      oled_knownEffectModeIndex := 0
      oled_knownEffectPaletteIndex := 0 },
   [ OledCmd.begin,
     OledCmd.setFont,
     OledCmd.setFontRefHeightExtendedText,
     OledCmd.setDrawColor 1,
     OledCmd.setFontPosTop,
     OledCmd.setFontDirection 0,
     OledCmd.clearBuffer,
     OledCmd.drawStr (64 - ((b.getStrWidth chBuffer / 2 : Nat) : Int)) 0 chBuffer,
     OledCmd.sendBuffer ])

/-- Embedding of `userConnected()`. -/
def userConnected (b : Build) (h : Host) (s : State) : State :=
  updateInfo b h s

/-- The last `if` of `userLoop` (the throttled redraw), reached when no `return`
was taken. `out` holds the display calls made so far. -/
def userLoopRedraw (clock : Millis) (s : State) (out : List OledCmd) :
    State × List OledCmd :=
  if s.oled_redrawRequired then
    if elapsed clock.redrawCheck s.oled_lastRedrawTime > OLED_REDRAW_RATE_MS then
      ({ (oled_drawDisplay s).1 with oled_lastRedrawTime := toLong clock.redrawStamp },
       out ++ (oled_drawDisplay s).2)
    else (s, out)
  else (s, out)

/-- The first `if` of `userLoop`: the refresh, at most once per update interval. -/
def userLoopRefresh (b : Build) (h : Host) (clock : Millis) (s : State) : State :=
  if elapsed clock.updateCheck s.oled_lastUpdateTime > OLED_UPDATE_RATE_MS then
    { updateInfo b h s with oled_lastUpdateTime := toLong clock.updateStamp }
  else s

/-- Embedding of `userLoop()`: the state it leaves and the display calls it makes. -/
def userLoop (b : Build) (h : Host) (clock : Millis) (s : State) :
    State × List OledCmd :=
  let s : State := userLoopRefresh b h clock s
  let out : List OledCmd := if s.oled_redrawRequired then [OledCmd.sleepOff] else []
  let s : State :=
    if s.oled_redrawRequired then { s with oled_displayIsAsleep := false } else s
  if !s.oled_redrawRequired then
    if s.oled_displayIsAsleep then
      (s, out)
    else if elapsed clock.sleepCheck s.oled_lastRedrawTime > OLED_DISPLAY_SLEEP_TIMEOUT_MS then
      ({ s with oled_displayIsAsleep := true }, out ++ [OledCmd.sleepOn])
    else userLoopRedraw clock s out
  else userLoopRedraw clock s out

/-- A list of display calls holds a run of `oled_drawDisplay`, which is the only
place of `userLoop` that submits a frame. -/
def rendered (out : List OledCmd) : Prop := OledCmd.sendBuffer ∈ out

instance (out : List OledCmd) : Decidable (rendered out) :=
  inferInstanceAs (Decidable (OledCmd.sendBuffer ∈ out))

/-- States the globals can be in: after `userSetup` at boot, and after any later call
of `userConnected` or `userLoop`, each with its own host values and clock. -/
inductive Reachable (b : Build) : State → Prop where
  | setup : Reachable b (userSetup b bootState).1
  | connected (h : Host) (s : State) : Reachable b s → Reachable b (userConnected b h s)
  | loop (h : Host) (clock : Millis) (s : State) :
      Reachable b s → Reachable b (userLoop b h clock s).1

/-! ## Closed form of a refresh -/

/-- The host differs from the snapshot in a field that asks for a redraw: network
name, address, brightness, effect index or palette index. The signal strength is
not among them. -/
def qualifyingChange (b : Build) (h : Host) (s : State) : Bool :=
  currentSSID b h != s.oled_knownSSID
    || currentIP h != s.oled_knownIP
    || h.bri != s.oled_knownBrightness
    || h.mode != s.oled_knownEffectModeIndex
    || h.palette != s.oled_knownEffectPaletteIndex

/-- The write to `oled_knownSSID` that the connected branch of `updateInfo` makes
when `ESP8266` is defined. -/
def ssidEarlyWrite (b : Build) (h : Host) (s : State) : State :=
  if h.connected && b.ESP8266 then
    { s with oled_knownSSID := if h.apActive then h.softAPSSID else h.SSID }
  else s

/-- The state the comparisons of `updateInfo` leave, field by field; shown equal to
`updateInfo` in `updateInfo_eq_refreshed`. -/
def refreshed (b : Build) (h : Host) (s : State) : State :=
  { oled_firstRun := false
    oled_redrawRequired := s.oled_redrawRequired || s.oled_firstRun || qualifyingChange b h s
    oled_lastRedrawTime := s.oled_lastRedrawTime
    oled_lastUpdateTime := s.oled_lastUpdateTime
    oled_displayIsAsleep := s.oled_displayIsAsleep
    oled_knownSSID := currentSSID b h
    oled_knownRSSI := h.RSSI
    oled_knownIP := currentIP h
    oled_knownBrightness := h.bri
    oled_knownEffectModeIndex := h.mode
    oled_knownEffectPaletteIndex := h.palette
    oled_knownEffectModeName :=
      if s.oled_firstRun || h.mode != s.oled_knownEffectModeIndex then
        getEffectModeName b h.mode
      else s.oled_knownEffectModeName
    oled_knownEffectPaletteName :=
      if s.oled_firstRun || h.palette != s.oled_knownEffectPaletteIndex then
        getEffectPaletteName b h.palette
      else s.oled_knownEffectPaletteName }

/-- The cached names are the decoded names of the cached indices. -/
def NamesInSync (b : Build) (s : State) : Prop :=
  s.oled_knownEffectModeName = getStringFromJSON b.JSON_mode_names s.oled_knownEffectModeIndex
    ∧ s.oled_knownEffectPaletteName
        = getStringFromJSON b.JSON_palette_names s.oled_knownEffectPaletteIndex

/-! ## Sample data -/

/-- A build for the ESP32 board with two short name tables and a 6 pixel font. -/
def heltecBuild : Build :=
  { ESP8266 := false
    JSON_mode_names := "[\"Solid\",\"Blink\",\"Breathe\"]".toList
    JSON_palette_names := "[\"Default\",\"Party\"]".toList
    getStrWidth := fun t => 6 * t.length }

/-- A host joined to the network `Home`. -/
def homeHost : Host :=
  { connected := true
    SSID := "Home".toList
    softAPSSID := "WLED-AP".toList
    apActive := false
    RSSI := -70
    localIP := ⟨192, 168, 1, 5⟩
    bri := 128
    mode := 0
    palette := 1 }

/-- The snapshot of `homeHost` some minutes after boot, display awake, nothing
pending. -/
def homeState : State :=
  { oled_firstRun := false
    oled_redrawRequired := false
    oled_lastRedrawTime := 280000
    oled_lastUpdateTime := 400000
    oled_displayIsAsleep := false
    oled_knownSSID := "Home".toList
    oled_knownRSSI := -70
    oled_knownIP := ⟨192, 168, 1, 5⟩
    oled_knownBrightness := 128
    oled_knownEffectModeIndex := 0
    oled_knownEffectPaletteIndex := 1
    oled_knownEffectModeName := "Solid".toList
    oled_knownEffectPaletteName := "Party".toList }

/-- The build of `heltecBuild` compiled with the macro `ESP8266` defined. -/
def esp8266Build : Build := { heltecBuild with ESP8266 := true }

/-! ## Array literals and the characters a scan selects -/

/-- An entry of an array literal: the text between two double quotes. -/
def quoted (s : List Char) : List Char := '"' :: (s ++ ['"'])

/-- Quoted entries separated by commas. -/
def joinComma : List (List Char) → List Char
  | [] => []
  | [s] => quoted s
  | s :: t :: rest => quoted s ++ ',' :: joinComma (t :: rest)

/-- The flat array literal `["s0","s1",...]` of the strings `ss`. -/
def jsonLiteral (ss : List (List Char)) : List Char :=
  '[' :: (joinComma ss ++ [']'])

/-- A buffer that has the form of a flat array literal whose entries hold no
double quote. -/
def IsArrayLiteral (buf : List Char) : Prop :=
  ∃ ss : List (List Char), (∀ s ∈ ss, '"' ∉ s) ∧ buf = jsonLiteral ss

/-- Removal of the two bracket characters from a text. -/
def dropBrackets (s : List Char) : List Char :=
  s.filter (fun c => c != '[' && c != ']')

/-- The characters a scan appends to `jsonItem` while it reads `buf`, entered with
comma count `q` and quote flag `ins`: a closed form of the loop without the
accumulator, used to reason about `scanLoop`. -/
def selected (index : Nat) : List Char → Nat → Bool → List Char
  | [], _, _ => []
  | c :: rest, q, ins =>
    if c = '"' then selected index rest q (!ins)
    else if c = '[' ∨ c = ']' then selected index rest q ins
    else if ins = true ∧ (if c = ',' then (q + 1) % 256 else q) = index then
      c :: selected index rest (if c = ',' then (q + 1) % 256 else q) ins
    else selected index rest (if c = ',' then (q + 1) % 256 else q) ins

/-- An array of 257 strings: `"a"`, 255 empty strings, `"b"`. -/
def wrapArray : List (List Char) :=
  "a".toList :: (List.replicate 255 [] ++ ["b".toList])

/-! ## Reference forms of the extractor -/

/-- The buffer truncated just after its `k`-th comma, the whole buffer when it holds
fewer than `k` commas. -/
def upToComma : Nat → List Char → List Char
  | 0, _ => []
  | _ + 1, [] => []
  | k + 1, c :: rest =>
    if c = ',' then c :: upToComma k rest else c :: upToComma (k + 1) rest

/-- The test of the reference form on the character `c` at position `p` of `buf`:
`c` is no double quote and no bracket, the number of double quotes before `p` is
odd, and the number of commas at positions up to and including `p` is `index`. -/
def keptAt (buf : List Char) (index : Nat) (p : Nat) (c : Char) : Bool :=
  c != '"' && c != '[' && c != ']'
    && decide ((buf.take p).count '"' % 2 = 1)
    && decide ((buf.take (p + 1)).count ',' = index)

/-- The reference form of the extractor, after the words of the specification: the
characters of the buffer that pass `keptAt`, in the order of their positions. -/
def extractorReference (buf : List Char) (index : Nat) : List Char :=
  (buf.enum.filter (fun pc => keptAt buf index pc.1 pc.2)).map Prod.snd

/-! ## Runs with one clock reading for each `userLoop` -/

/-- States reached from `userSetup` at boot by calls of `userConnected` and
`userLoop`, where every call of `userLoop` reads one time value. -/
inductive ReachableOneReading (b : Build) : State → Prop where
  | setup : ReachableOneReading b (userSetup b bootState).1
  | connected (h : Host) (s : State) :
      ReachableOneReading b s → ReachableOneReading b (userConnected b h s)
  | loop (h : Host) (now : Nat) (s : State) :
      ReachableOneReading b s → ReachableOneReading b (userLoop b h (Millis.const now) s).1

/-! ## Quality estimator: results -/

/-- C3: for every `rssi`, `getWifiQuality rssi` is 0 when `rssi ≤ -100`, 100 when
`rssi ≥ -50` and `2 * (rssi + 100)` otherwise; the result lies in [0,100] and is the
value `quality` had before the cast to `uint8_t`; at -100, -50 and -75 it is 0, 100
and 50. -/
theorem getWifiQuality_piecewise (rssi : Int) :
    ((getWifiQuality rssi : Int) =
        if rssi ≤ -100 then 0 else if rssi ≥ -50 then 100 else 2 * (rssi + 100))
      ∧ getWifiQuality rssi ≤ 100
      ∧ (getWifiQuality rssi : Int) = wifiQualityLong rssi
      ∧ getWifiQuality (-100) = 0 ∧ getWifiQuality (-50) = 100
      ∧ getWifiQuality (-75) = 50 := by
  refine ⟨?_, ?_, ?_, by decide, by decide, by decide⟩
  · simp only [getWifiQuality, toUInt8, wifiQualityLong]
    split_ifs <;> omega
  · simp only [getWifiQuality, toUInt8, wifiQualityLong]
    split_ifs <;> omega
  · simp only [getWifiQuality, toUInt8]
    unfold wifiQualityLong
    split_ifs <;> omega


/-! ## Extractor: the scan and what it selects -/

theorem scanLoop_jsonItem (index : Nat) (buf : List Char) (st : ScanState) :
    (scanLoop index buf st).jsonItem
      = st.jsonItem ++ selected index buf st.qComma st.insideQuotes := by
  induction buf generalizing st with
  | nil => simp [scanLoop, selected]
  | cons c rest ih =>
    unfold scanLoop selected
    by_cases hq : c = '"'
    · simp only [hq, if_true]
      rw [ih]
    · simp only [hq, if_false]
      by_cases hb : c = '[' ∨ c = ']'
      · simp only [hb, if_true]
        rw [ih]
      · simp only [hb, if_false]
        by_cases hsel : st.insideQuotes = true ∧
            (if c = ',' then (st.qComma + 1) % 256 else st.qComma) = index
        · obtain ⟨hin, hidx⟩ := hsel
          have hlt : ¬ (if c = ',' then (st.qComma + 1) % 256 else st.qComma) > index := by
            omega
          simp only [hin, hidx, Bool.not_true, Bool.false_or, bne_self_eq_false,
            Bool.false_eq_true, if_false, and_self, if_true, gt_iff_lt, lt_self_iff_false]
          rw [ih]
          simp
        · have hcond : (!st.insideQuotes ||
              (if c = ',' then (st.qComma + 1) % 256 else st.qComma) != index) = true := by
            cases hin : st.insideQuotes
            · simp
            · simp only [hin, true_and] at hsel
              simp [hsel]
          simp only [hcond, if_true, hsel, if_false]
          rw [ih]

theorem getStringFromJSON_eq_selected (buf : List Char) (index : Nat) :
    getStringFromJSON buf index = selected index buf 0 false := by
  simp [getStringFromJSON, scanLoop_jsonItem]


theorem selected_of_commas_lt (index : Nat) (buf : List Char) (q : Nat) (ins : Bool)
    (h : q + buf.count ',' < index) : selected index buf q ins = [] := by
  induction buf generalizing q ins with
  | nil => simp [selected]
  | cons c rest ih =>
    unfold selected
    by_cases hc : c = ','
    · subst hc
      have h1 : (q + 1) % 256 + rest.count ',' < index := by
        simp only [List.count_cons_self] at h
        have := Nat.mod_le (q + 1) 256
        omega
      have h2 : (q + 1) % 256 ≠ index := by omega
      simp [h2, ih _ _ h1]
    · have h1 : q + rest.count ',' < index := by
        rw [List.count_cons_of_ne (Ne.symm hc)] at h
        exact h
      have h2 : q ≠ index := by omega
      simp only [hc, if_false, h2, and_false]
      split_ifs <;> exact ih _ _ h1

theorem selected_quote (index : Nat) (rest : List Char) (q : Nat) (ins : Bool) :
    selected index ('"' :: rest) q ins = selected index rest q (!ins) := by
  rw [selected]; simp

theorem selected_open (index : Nat) (rest : List Char) (q : Nat) (ins : Bool) :
    selected index ('[' :: rest) q ins = selected index rest q ins := by
  rw [selected]; simp

theorem selected_close (index : Nat) (rest : List Char) (q : Nat) (ins : Bool) :
    selected index (']' :: rest) q ins = selected index rest q ins := by
  rw [selected]; simp

theorem selected_comma_outside (index : Nat) (rest : List Char) (q : Nat) :
    selected index (',' :: rest) q false = selected index rest ((q + 1) % 256) false := by
  rw [selected]; simp

theorem selected_plain (index : Nat) (c : Char) (rest : List Char) (q : Nat)
    (h1 : c ≠ '"') (h2 : c ≠ '[') (h3 : c ≠ ']') (h4 : c ≠ ',') :
    selected index (c :: rest) q true
      = if q = index then c :: selected index rest q true else selected index rest q true := by
  rw [selected]; simp [h1, h2, h3, h4]

theorem selected_body (index : Nat) (s rest : List Char) (q : Nat)
    (hc : ',' ∉ s) (hq : '"' ∉ s) :
    selected index (s ++ rest) q true
      = (if q = index then dropBrackets s else []) ++ selected index rest q true := by
  induction s with
  | nil => simp [dropBrackets]
  | cons c t ih =>
    have hc1 : c ≠ ',' := fun e => hc (by simp [e])
    have hq1 : c ≠ '"' := fun e => hq (by simp [e])
    have hct : ',' ∉ t := fun e => hc (List.mem_cons_of_mem _ e)
    have hqt : '"' ∉ t := fun e => hq (List.mem_cons_of_mem _ e)
    rw [List.cons_append]
    by_cases hb1 : c = '['
    · subst hb1
      rw [selected_open, ih hct hqt]
      simp [dropBrackets]
    · by_cases hb2 : c = ']'
      · subst hb2
        rw [selected_close, ih hct hqt]
        simp [dropBrackets]
      · rw [selected_plain index c _ q hq1 hb1 hb2 hc1, ih hct hqt]
        by_cases hi : q = index <;> simp [hi, dropBrackets, hb1, hb2]

theorem selected_quoted (index : Nat) (s rest : List Char) (q : Nat)
    (hc : ',' ∉ s) (hq : '"' ∉ s) :
    selected index (quoted s ++ rest) q false
      = (if q = index then dropBrackets s else []) ++ selected index rest q false := by
  have h1 : quoted s ++ rest = '"' :: (s ++ ('"' :: rest)) := by simp [quoted]
  rw [h1, selected_quote, Bool.not_false, selected_body index s _ q hc hq, selected_quote,
    Bool.not_true]

theorem selected_joinComma (index : Nat) :
    ∀ (ss : List (List Char)) (q : Nat),
      (∀ s ∈ ss, ',' ∉ s ∧ '"' ∉ s) → q + ss.length ≤ 256 →
      selected index (joinComma ss ++ [']']) q false
        = if q ≤ index then dropBrackets (ss.getD (index - q) []) else []
  | [], q, _, _ => by simp [joinComma, selected, dropBrackets]
  | [s], q, hs, _ => by
    have h := hs s (by simp)
    simp only [joinComma]
    rw [selected_quoted index s _ q h.1 h.2]
    have h0 : selected index [']'] q false = [] := by
      rw [selected_close]; simp [selected]
    rw [h0]
    by_cases hi : q = index
    · subst hi; simp
    · by_cases hle : q ≤ index
      · have : index - q = (index - q - 1) + 1 := by omega
        rw [this]
        simp [hi, hle, dropBrackets]
      · simp [hi, hle]
  | s :: t :: rest, q, hs, hlen => by
    have h := hs s (by simp)
    have hs2 : ∀ u ∈ t :: rest, ',' ∉ u ∧ '"' ∉ u := fun u hu =>
      hs u (List.mem_cons_of_mem _ hu)
    have hlen2 : (q + 1) + (t :: rest).length ≤ 256 := by
      simp only [List.length_cons] at hlen ⊢
      omega
    have hmod : (q + 1) % 256 = q + 1 := by
      apply Nat.mod_eq_of_lt
      simp only [List.length_cons] at hlen
      omega
    have ih := selected_joinComma index (t :: rest) (q + 1) hs2 hlen2
    have h1 : joinComma (s :: t :: rest) ++ [']']
        = quoted s ++ (',' :: (joinComma (t :: rest) ++ [']'])) := by
      simp [joinComma]
    rw [h1, selected_quoted index s _ q h.1 h.2]
    have h2 : selected index (',' :: (joinComma (t :: rest) ++ [']'])) q false
        = selected index (joinComma (t :: rest) ++ [']']) (q + 1) false := by
      rw [selected_comma_outside, hmod]
    rw [h2, ih]
    by_cases hi : q = index
    · subst hi; simp
    · by_cases hle : q ≤ index
      · have hle2 : q + 1 ≤ index := by omega
        have : index - q = (index - (q + 1)) + 1 := by omega
        rw [this]
        simp [hi, hle, hle2]
      · have hle2 : ¬ q + 1 ≤ index := by omega
        simp [hi, hle, hle2]

theorem count_comma_joinComma :
    ∀ (ss : List (List Char)), (∀ s ∈ ss, ',' ∉ s) →
      (joinComma ss).count ',' = ss.length - 1
  | [], _ => by simp [joinComma]
  | [s], hs => by
    have h := hs s (by simp)
    simp [joinComma, quoted, List.count_cons, List.count_eq_zero_of_not_mem h]
  | s :: t :: rest, hs => by
    have h := hs s (by simp)
    have ih := count_comma_joinComma (t :: rest) (fun u hu => hs u (List.mem_cons_of_mem _ hu))
    simp only [joinComma, List.count_append, List.count_cons_self, ih]
    simp [quoted, List.count_cons, List.count_eq_zero_of_not_mem h]

/-! ## Extractor: claims -/

/-- C1 (amended): for an array of at most 256 strings that hold no comma and no
double quote, serialised as a flat literal, `getStringFromJSON` at an index `i`
below the number of strings returns the `i`-th string without its `[` and `]`
characters, hence the `i`-th string itself when it holds no bracket. -/
theorem getStringFromJSON_literal (ss : List (List Char)) (i : Nat)
    (hs : ∀ s ∈ ss, ',' ∉ s ∧ '"' ∉ s) (hN : ss.length ≤ 256) (hi : i < ss.length) :
    getStringFromJSON (jsonLiteral ss) i = dropBrackets (ss.get ⟨i, hi⟩)
      ∧ (('[' ∉ ss.get ⟨i, hi⟩ ∧ ']' ∉ ss.get ⟨i, hi⟩) →
          getStringFromJSON (jsonLiteral ss) i = ss.get ⟨i, hi⟩) := by
  have key : getStringFromJSON (jsonLiteral ss) i = dropBrackets (ss.get ⟨i, hi⟩) := by
    rw [getStringFromJSON_eq_selected, jsonLiteral, selected_open,
      selected_joinComma i ss 0 hs (by omega)]
    simp [List.getD_eq_getElem?_getD, List.getElem?_eq_getElem hi]
  refine ⟨key, fun hb => ?_⟩
  rw [key, dropBrackets, List.filter_eq_self]
  intro c hc
  have h1 : c ≠ '[' := fun e => hb.1 (e ▸ hc)
  have h2 : c ≠ ']' := fun e => hb.2 (e ▸ hc)
  simp [h1, h2]

theorem getStringFromJSON_literal_witness :
    (∀ s ∈ ["Solid".toList, "Blink".toList, "Breathe".toList], ',' ∉ s ∧ '"' ∉ s)
      ∧ getStringFromJSON (jsonLiteral ["Solid".toList, "Blink".toList, "Breathe".toList]) 2
          = "Breathe".toList :=
  ⟨by decide,
   (getStringFromJSON_literal ["Solid".toList, "Blink".toList, "Breathe".toList] 2
      (by decide) (by decide) (by decide)).2 (by decide)⟩

set_option maxRecDepth 200000 in
/-- C1 (as stated) fails: the one-entry array `["a[b"]` holds no comma and no quote,
yet index 0 yields `ab`; and in the 257-entry array `wrapArray` index 0 yields `ab`
where the first string is `a`, because the 8-bit comma count is back at 0 when the
last entry is read. -/
theorem getStringFromJSON_literal_counterexample :
    ((∀ s ∈ ["a[b".toList], ',' ∉ s ∧ '"' ∉ s)
        ∧ getStringFromJSON (jsonLiteral ["a[b".toList]) 0 = "ab".toList
        ∧ getStringFromJSON (jsonLiteral ["a[b".toList]) 0 ≠ "a[b".toList)
      ∧ ((∀ s ∈ wrapArray, ',' ∉ s ∧ '"' ∉ s)
        ∧ getStringFromJSON (jsonLiteral wrapArray) 0 = "ab".toList
        ∧ getStringFromJSON (jsonLiteral wrapArray) 0 ≠ "a".toList) := by
  refine ⟨⟨by decide, by decide, by decide⟩, ?_, ?_, ?_⟩
  · decide
  · decide
  · decide

theorem selected_of_no_quote (index : Nat) (buf : List Char) (q : Nat)
    (h : '"' ∉ buf) : selected index buf q false = [] := by
  induction buf generalizing q with
  | nil => simp [selected]
  | cons c rest ih =>
    have h1 : c ≠ '"' := fun e => h (by simp [e])
    have h2 : '"' ∉ rest := fun e => h (List.mem_cons_of_mem _ e)
    rw [selected]
    simp only [h1, if_false, Bool.false_eq_true, false_and]
    split_ifs <;> exact ih _ h2

theorem count_comma_jsonLiteral (ss : List (List Char)) (hs : ∀ s ∈ ss, ',' ∉ s) :
    (jsonLiteral ss).count ',' = ss.length - 1 := by
  simp [jsonLiteral, List.count_cons, count_comma_joinComma ss hs]

/-- C9: for a flat array literal of `N` entries that hold no comma and no double
quote (`N` may be 0) and every index `i ≥ N`, `getStringFromJSON` returns the empty
string. -/
theorem getStringFromJSON_out_of_range (ss : List (List Char)) (i : Nat)
    (hs : ∀ s ∈ ss, ',' ∉ s ∧ '"' ∉ s) (hi : ss.length ≤ i) :
    getStringFromJSON (jsonLiteral ss) i = [] := by
  rw [getStringFromJSON_eq_selected]
  cases ss with
  | nil => simp [jsonLiteral, joinComma, selected]
  | cons s t =>
    apply selected_of_commas_lt
    rw [count_comma_jsonLiteral _ (fun u hu => (hs u hu).1)]
    simp only [List.length_cons] at hi ⊢
    omega

theorem getStringFromJSON_out_of_range_witness :
    (∀ s ∈ ["Solid".toList, "Blink".toList, "Breathe".toList], ',' ∉ s ∧ '"' ∉ s)
      ∧ getStringFromJSON (jsonLiteral ["Solid".toList, "Blink".toList, "Breathe".toList]) 5
          = [] :=
  ⟨by decide,
   getStringFromJSON_out_of_range ["Solid".toList, "Blink".toList, "Breathe".toList] 5
     (by decide) (by decide)⟩

theorem jsonLiteral_getLast (ss : List (List Char)) :
    (jsonLiteral ss).getLast? = some ']' := by
  simp [jsonLiteral, List.getLast?_cons, List.getLast?_append]

/-- C10 (as stated) fails: the truncated literal `["abc`, with its quote left open
and its closing bracket missing, is not an array literal, and index 0 yields `abc`. -/
theorem getStringFromJSON_malformed_counterexample :
    ¬ IsArrayLiteral "[\"abc".toList
      ∧ getStringFromJSON "[\"abc".toList 0 = "abc".toList
      ∧ getStringFromJSON "[\"abc".toList 0 ≠ [] := by
  refine ⟨?_, by decide, by decide⟩
  rintro ⟨ss, -, h⟩
  have h1 := congrArg List.getLast? h
  rw [jsonLiteral_getLast] at h1
  revert h1
  decide

/-- C10 (amended): for every buffer, well formed or not, `getStringFromJSON` returns
the empty string at an index when the buffer holds fewer commas than the index, or
holds no double quote at all. -/
theorem getStringFromJSON_empty_of_short (buf : List Char) (index : Nat)
    (h : buf.count ',' < index ∨ '"' ∉ buf) :
    getStringFromJSON buf index = [] := by
  rw [getStringFromJSON_eq_selected]
  rcases h with h | h
  · exact selected_of_commas_lt index buf 0 false (by omega)
  · exact selected_of_no_quote index buf 0 h

theorem getStringFromJSON_empty_of_short_witness :
    ¬ IsArrayLiteral "[\"abc".toList ∧ getStringFromJSON "[\"abc".toList 1 = [] :=
  ⟨fun ⟨ss, _, h⟩ => by
      have h1 := congrArg List.getLast? h
      rw [jsonLiteral_getLast] at h1
      revert h1
      decide,
   getStringFromJSON_empty_of_short "[\"abc".toList 1 (Or.inl (by decide))⟩

/-! ## Info refresher: closed form -/

theorem updateInfo_eq_refreshed (b : Build) (h : Host) (s : State) :
    updateInfo b h s = refreshed b h (ssidEarlyWrite b h s) := by
  unfold updateInfo
  rw [show (if (h.connected && b.ESP8266) = true then
        { s with oled_knownSSID := if h.apActive = true then h.softAPSSID else h.SSID }
      else s) = ssidEarlyWrite b h s from rfl]
  generalize ssidEarlyWrite b h s = t
  cases t with
  | mk fr rr lrt lut asl ssid rssi ip bri mi pi mn pn =>
    simp only [refreshed, qualifyingChange]
    cases fr
    · by_cases h1 : currentSSID b h = ssid <;> by_cases h2 : h.RSSI = rssi <;>
      by_cases h3 : currentIP h = ip <;> by_cases h4 : h.bri = bri <;>
      by_cases h5 : h.mode = mi <;> by_cases h6 : h.palette = pi <;>
      simp [h1, h2, h3, h4, h5, h6]
    · simp

theorem ssidEarlyWrite_of_not_esp8266 (b : Build) (h : Host) (s : State)
    (hb : b.ESP8266 = false) : ssidEarlyWrite b h s = s := by
  simp [ssidEarlyWrite, hb]

theorem ssidEarlyWrite_of_not_connected (b : Build) (h : Host) (s : State)
    (hc : h.connected = false) : ssidEarlyWrite b h s = s := by
  simp [ssidEarlyWrite, hc]

theorem ssidEarlyWrite_fields (b : Build) (h : Host) (s : State) :
    (ssidEarlyWrite b h s).oled_firstRun = s.oled_firstRun
      ∧ (ssidEarlyWrite b h s).oled_redrawRequired = s.oled_redrawRequired
      ∧ (ssidEarlyWrite b h s).oled_lastRedrawTime = s.oled_lastRedrawTime
      ∧ (ssidEarlyWrite b h s).oled_lastUpdateTime = s.oled_lastUpdateTime
      ∧ (ssidEarlyWrite b h s).oled_displayIsAsleep = s.oled_displayIsAsleep
      ∧ (ssidEarlyWrite b h s).oled_knownEffectModeIndex = s.oled_knownEffectModeIndex
      ∧ (ssidEarlyWrite b h s).oled_knownEffectPaletteIndex = s.oled_knownEffectPaletteIndex
      ∧ (ssidEarlyWrite b h s).oled_knownEffectModeName = s.oled_knownEffectModeName
      ∧ (ssidEarlyWrite b h s).oled_knownEffectPaletteName = s.oled_knownEffectPaletteName := by
  unfold ssidEarlyWrite
  split_ifs <;> simp

theorem updateInfo_firstRun (b : Build) (h : Host) (s : State) :
    (updateInfo b h s).oled_firstRun = false := by
  rw [updateInfo_eq_refreshed]; rfl

theorem updateInfo_lastRedrawTime (b : Build) (h : Host) (s : State) :
    (updateInfo b h s).oled_lastRedrawTime = s.oled_lastRedrawTime := by
  rw [updateInfo_eq_refreshed]; exact (ssidEarlyWrite_fields b h s).2.2.1

theorem updateInfo_displayIsAsleep (b : Build) (h : Host) (s : State) :
    (updateInfo b h s).oled_displayIsAsleep = s.oled_displayIsAsleep := by
  rw [updateInfo_eq_refreshed]; exact (ssidEarlyWrite_fields b h s).2.2.2.2.1

theorem updateInfo_redraw_of_pending (b : Build) (h : Host) (s : State)
    (hr : s.oled_redrawRequired = true) : (updateInfo b h s).oled_redrawRequired = true := by
  rw [updateInfo_eq_refreshed]
  simp [refreshed, (ssidEarlyWrite_fields b h s).2.1, hr]

theorem updateInfo_namesInSync (b : Build) (h : Host) (s : State)
    (hs : s.oled_firstRun = false → NamesInSync b s) : NamesInSync b (updateInfo b h s) := by
  rw [updateInfo_eq_refreshed]
  obtain ⟨f1, -, -, -, -, f6, f7, f8, f9⟩ := ssidEarlyWrite_fields b h s
  simp only [NamesInSync, refreshed, f1, f6, f7, f8, f9, getEffectModeName,
    getEffectPaletteName]
  cases hf : s.oled_firstRun
  · obtain ⟨h1, h2⟩ := hs hf
    constructor
    · by_cases hm : h.mode = s.oled_knownEffectModeIndex
      · simp [hm, h1]
      · simp [hm]
    · by_cases hp : h.palette = s.oled_knownEffectPaletteIndex
      · simp [hp, h2]
      · simp [hp]
  · simp

/-! ## Info refresher: claims -/

/-- In the build for the ESP32 (`ESP8266` not defined), after `updateInfo` the
flag `redrawRequired` is its old value OR `firstRun` OR a difference between host
and snapshot in network name, address, brightness, effect index or palette index.
With `firstRun` false a brightness difference sets the flag, and a difference in
signal strength alone leaves the flag as it was and stores the new signal strength. -/
theorem updateInfo_redrawRequired (b : Build) (h : Host) (s : State)
    (hb : b.ESP8266 = false) :
    (updateInfo b h s).oled_redrawRequired
        = (s.oled_redrawRequired || s.oled_firstRun || qualifyingChange b h s)
      ∧ (s.oled_firstRun = false → h.bri ≠ s.oled_knownBrightness →
          (updateInfo b h s).oled_redrawRequired = true)
      ∧ (s.oled_firstRun = false → qualifyingChange b h s = false →
          h.RSSI ≠ s.oled_knownRSSI →
          (updateInfo b h s).oled_redrawRequired = s.oled_redrawRequired
            ∧ (updateInfo b h s).oled_knownRSSI = h.RSSI) := by
  rw [updateInfo_eq_refreshed, ssidEarlyWrite_of_not_esp8266 b h s hb]
  refine ⟨rfl, ?_, ?_⟩
  · intro _ hbri
    simp [refreshed, qualifyingChange, hbri]
  · intro hf hq _
    simp [refreshed, hf, hq]

theorem updateInfo_redrawRequired_witness :
    (updateInfo heltecBuild { homeHost with RSSI := -60 } homeState).oled_redrawRequired
        = homeState.oled_redrawRequired
      ∧ (updateInfo heltecBuild { homeHost with RSSI := -60 } homeState).oled_knownRSSI = -60 :=
  (updateInfo_redrawRequired heltecBuild { homeHost with RSSI := -60 } homeState rfl).2.2
    (by decide) (by decide) (by decide)

/-- C7 (as stated) fails: in the ESP32 build a host that is connected and runs an
access point named `WLED-AP` while its network is `Home` leaves `Home` in the
snapshot, not the name of the access point. -/
theorem updateInfo_knownSSID_counterexample :
    ({ homeHost with apActive := true }).connected = true
      ∧ (updateInfo heltecBuild { homeHost with apActive := true } homeState).oled_knownSSID
          = "Home".toList
      ∧ (updateInfo heltecBuild { homeHost with apActive := true } homeState).oled_knownSSID
          ≠ ({ homeHost with apActive := true }).softAPSSID := by
  decide

/-- C7 (amended): after `updateInfo` the snapshot's ssid is the sentinel
`~NOT CONNECTED~` when the host is not connected; when it is connected, in the build
for the ESP32 (`ESP8266` not defined), the ssid is the active network name
`WiFi.SSID()`, also while the host runs an access point. -/
theorem updateInfo_knownSSID (b : Build) (h : Host) (s : State) :
    (h.connected = false → (updateInfo b h s).oled_knownSSID = "~NOT CONNECTED~".toList)
      ∧ (b.ESP8266 = false → h.connected = true →
          (updateInfo b h s).oled_knownSSID = h.SSID) := by
  rw [updateInfo_eq_refreshed]
  constructor
  · intro hc
    simp [refreshed, currentSSID, hc]
  · intro hb hc
    simp [refreshed, currentSSID, hb, hc]

theorem updateInfo_knownSSID_witness :
    (updateInfo heltecBuild { homeHost with apActive := true } homeState).oled_knownSSID
      = "Home".toList :=
  (updateInfo_knownSSID heltecBuild { homeHost with apActive := true } homeState).2 rfl rfl

/-- With `ESP8266` defined the connected branch stores the name in `oled_knownSSID`
and leaves `currentSSID` empty, so the comparison that follows always ends with an
empty ssid in the snapshot. -/
theorem updateInfo_knownSSID_esp8266 (b : Build) (h : Host) (s : State)
    (hb : b.ESP8266 = true) (hc : h.connected = true) :
    (updateInfo b h s).oled_knownSSID = [] := by
  rw [updateInfo_eq_refreshed]
  simp [refreshed, currentSSID, hb, hc]

/-! ## Display scheduler: claims -/

theorem elapsed_zero (now : Nat) (h : now < 4294967296) : elapsed now 0 = now := by
  simp only [elapsed, toULong]
  norm_num
  omega

theorem userLoopRefresh_fields (b : Build) (h : Host) (clock : Millis) (s : State) :
    (userLoopRefresh b h clock s).oled_lastRedrawTime = s.oled_lastRedrawTime
      ∧ (userLoopRefresh b h clock s).oled_displayIsAsleep = s.oled_displayIsAsleep := by
  unfold userLoopRefresh
  split_ifs
  · exact ⟨updateInfo_lastRedrawTime b h s, updateInfo_displayIsAsleep b h s⟩
  · exact ⟨rfl, rfl⟩

theorem userLoopRefresh_pending (b : Build) (h : Host) (clock : Millis) (s : State)
    (hr : s.oled_redrawRequired = true) :
    (userLoopRefresh b h clock s).oled_redrawRequired = true := by
  unfold userLoopRefresh
  split_ifs
  · exact updateInfo_redraw_of_pending b h s hr
  · exact hr

/-- When a redraw is pending after the refresh step, `userLoop` leaves the display
awake and renders exactly when the redraw interval has passed. -/
theorem userLoop_of_pending (b : Build) (h : Host) (clock : Millis) (s : State)
    (hr : (userLoopRefresh b h clock s).oled_redrawRequired = true) :
    (userLoop b h clock s).1.oled_displayIsAsleep = false
      ∧ (rendered (userLoop b h clock s).2 ↔
          OLED_REDRAW_RATE_MS < elapsed clock.redrawCheck s.oled_lastRedrawTime)
      ∧ (¬ OLED_REDRAW_RATE_MS < elapsed clock.redrawCheck s.oled_lastRedrawTime →
          (userLoop b h clock s).1.oled_redrawRequired = true) := by
  have ht := (userLoopRefresh_fields b h clock s).1
  unfold userLoop
  by_cases hred : OLED_REDRAW_RATE_MS < elapsed clock.redrawCheck s.oled_lastRedrawTime
  · simp [hr, ht, hred, userLoopRedraw, rendered, oled_drawDisplay]
  · simp [hr, ht, hred, userLoopRedraw, rendered]

/-- When no redraw is pending after the refresh step and the display is asleep,
`userLoop` returns at once. -/
theorem userLoop_of_clean_asleep (b : Build) (h : Host) (clock : Millis) (s : State)
    (hr : (userLoopRefresh b h clock s).oled_redrawRequired = false)
    (ha : s.oled_displayIsAsleep = true) :
    userLoop b h clock s = (userLoopRefresh b h clock s, []) := by
  have hs := (userLoopRefresh_fields b h clock s).2
  unfold userLoop
  simp [hr, hs, ha]

/-- When no redraw is pending after the refresh step, the display is awake and the
sleep timeout has passed, `userLoop` puts the display to sleep and returns. -/
theorem userLoop_of_clean_timeout (b : Build) (h : Host) (clock : Millis) (s : State)
    (hr : (userLoopRefresh b h clock s).oled_redrawRequired = false)
    (ha : s.oled_displayIsAsleep = false)
    (ht : OLED_DISPLAY_SLEEP_TIMEOUT_MS < elapsed clock.sleepCheck s.oled_lastRedrawTime) :
    userLoop b h clock s
      = ({ userLoopRefresh b h clock s with oled_displayIsAsleep := true },
         [OledCmd.sleepOn]) := by
  obtain ⟨h1, h2⟩ := userLoopRefresh_fields b h clock s
  unfold userLoop
  simp [hr, h1, h2, ha, ht]

/-- Without a qualifying change, with `firstRun` false and nothing pending, the
refresh step of the ESP32 build leaves nothing pending. -/
theorem userLoopRefresh_clean (b : Build) (h : Host) (clock : Millis) (s : State)
    (hb : b.ESP8266 = false) (hf : s.oled_firstRun = false)
    (hr : s.oled_redrawRequired = false) (hq : qualifyingChange b h s = false) :
    (userLoopRefresh b h clock s).oled_redrawRequired = false := by
  unfold userLoopRefresh
  split_ifs
  · rw [updateInfo_eq_refreshed, ssidEarlyWrite_of_not_esp8266 b h s hb]
    simp [refreshed, hf, hr, hq]
  · exact hr

/-- C2 (as stated) fails: a first `userLoop` 500 ms after boot does not render. -/
theorem userLoop_first_counterexample :
    ¬ rendered
        (userLoop heltecBuild homeHost (Millis.const 500) (userSetup heltecBuild bootState).1).2 := by
  decide

/-- C2 (amended): from the state `userSetup` leaves, the first `userLoop` invokes
`oled_drawDisplay` exactly when `millis()` is above `OLED_REDRAW_RATE_MS` (2000); up
to that time it does not render and `redrawRequired` stays true. -/
theorem userLoop_first_renders_iff (b : Build) (h : Host) (s : State) (now : Nat)
    (hnow : now < 4294967296) :
    (rendered (userLoop b h (Millis.const now) (userSetup b s).1).2 ↔
        OLED_REDRAW_RATE_MS < now)
      ∧ (now ≤ OLED_REDRAW_RATE_MS →
          (userLoop b h (Millis.const now) (userSetup b s).1).1.oled_redrawRequired = true) := by
  have key := userLoop_of_pending b h (Millis.const now) (userSetup b s).1
    (userLoopRefresh_pending b h _ _ rfl)
  have he : elapsed (Millis.const now).redrawCheck (userSetup b s).1.oled_lastRedrawTime
      = now := elapsed_zero now hnow
  rw [he] at key
  exact ⟨key.2.1, fun hle => key.2.2 (by omega)⟩

theorem userLoop_first_renders_iff_witness :
    rendered
      (userLoop heltecBuild homeHost (Millis.const 2500) (userSetup heltecBuild bootState).1).2 :=
  (userLoop_first_renders_iff heltecBuild homeHost bootState 2500 (by decide)).1.2 (by decide)

/-- C5 (as stated) fails: the display is asleep, the host brightness has changed, and
a `userLoop` 500 ms after the last refresh leaves the display asleep, because the
refresh that would notice the change does not run in that call. -/
theorem userLoop_wake_counterexample :
    ({ homeState with oled_displayIsAsleep := true }).oled_displayIsAsleep = true
      ∧ qualifyingChange heltecBuild { homeHost with bri := 10 }
          { homeState with oled_displayIsAsleep := true } = true
      ∧ (userLoop heltecBuild { homeHost with bri := 10 } (Millis.const 400500)
          { homeState with oled_displayIsAsleep := true }).1.oled_displayIsAsleep = true := by
  decide

/-- C5 (amended): in the ESP32 build, when the display is asleep and the host differs
from the snapshot in a qualifying field, a `userLoop` call whose refresh step runs
(more than `OLED_UPDATE_RATE_MS` since `lastUpdateTime`) leaves `displayIsAsleep`
false, whatever the clock reads afterwards and whether or not it renders. -/
theorem userLoop_wake_on_change (b : Build) (h : Host) (clock : Millis) (s : State)
    (hb : b.ESP8266 = false) (ha : s.oled_displayIsAsleep = true)
    (hq : qualifyingChange b h s = true)
    (hupd : OLED_UPDATE_RATE_MS < elapsed clock.updateCheck s.oled_lastUpdateTime) :
    (userLoop b h clock s).1.oled_displayIsAsleep = false := by
  have _ := ha
  apply (userLoop_of_pending b h clock s _).1
  unfold userLoopRefresh
  rw [if_pos hupd, updateInfo_eq_refreshed, ssidEarlyWrite_of_not_esp8266 b h s hb]
  simp [refreshed, hq]

theorem userLoop_wake_on_change_witness :
    (userLoop heltecBuild { homeHost with bri := 10 } (Millis.const 401500)
        { homeState with oled_displayIsAsleep := true }).1.oled_displayIsAsleep = false :=
  userLoop_wake_on_change heltecBuild { homeHost with bri := 10 } (Millis.const 401500)
    { homeState with oled_displayIsAsleep := true } rfl rfl (by decide) (by decide)

/-- In the ESP32 build, with `firstRun` false, `redrawRequired` false and the host
equal to the snapshot in every qualifying field: (a) when the display is awake and
the time since `lastRedrawTime` exceeds the sleep timeout, `userLoop` issues
`sleepOn` and nothing else, sets `displayIsAsleep` and does not render; (b) when the
display is asleep, `userLoop` leaves it asleep and makes no display call at all,
whatever the clock reads. -/
theorem userLoop_sleep (b : Build) (h : Host) (clock : Millis) (s : State)
    (hb : b.ESP8266 = false) (hf : s.oled_firstRun = false)
    (hr : s.oled_redrawRequired = false) (hq : qualifyingChange b h s = false) :
    (s.oled_displayIsAsleep = false →
        OLED_DISPLAY_SLEEP_TIMEOUT_MS < elapsed clock.sleepCheck s.oled_lastRedrawTime →
        (userLoop b h clock s).2 = [OledCmd.sleepOn]
          ∧ (userLoop b h clock s).1.oled_displayIsAsleep = true
          ∧ ¬ rendered (userLoop b h clock s).2)
      ∧ (s.oled_displayIsAsleep = true →
        (userLoop b h clock s).1.oled_displayIsAsleep = true
          ∧ (userLoop b h clock s).2 = []
          ∧ ¬ rendered (userLoop b h clock s).2) := by
  have hclean := userLoopRefresh_clean b h clock s hb hf hr hq
  constructor
  · intro ha ht
    rw [userLoop_of_clean_timeout b h clock s hclean ha ht]
    simp [rendered]
  · intro ha
    rw [userLoop_of_clean_asleep b h clock s hclean ha]
    simp [rendered, (userLoopRefresh_fields b h clock s).2, ha]

theorem userLoop_sleep_witness :
    (userLoop heltecBuild homeHost (Millis.const 400500) homeState).2 = [OledCmd.sleepOn]
      ∧ (userLoop heltecBuild homeHost (Millis.const 400500) homeState).1.oled_displayIsAsleep
          = true
      ∧ ¬ rendered (userLoop heltecBuild homeHost (Millis.const 400500) homeState).2 :=
  (userLoop_sleep heltecBuild homeHost (Millis.const 400500) homeState rfl rfl rfl
    (by decide)).1 rfl (by decide)

/-! ## Snapshot invariant -/

theorem userLoopRefresh_namesInSync (b : Build) (h : Host) (clock : Millis) (s : State)
    (hs : s.oled_firstRun = false → NamesInSync b s) :
    (userLoopRefresh b h clock s).oled_firstRun = false →
      NamesInSync b (userLoopRefresh b h clock s) := by
  unfold userLoopRefresh
  split_ifs
  · intro _
    exact updateInfo_namesInSync b h s hs
  · exact hs

theorem userLoop_snapshot (b : Build) (h : Host) (clock : Millis) (s : State) :
    (userLoop b h clock s).1.oled_firstRun = (userLoopRefresh b h clock s).oled_firstRun
      ∧ (NamesInSync b (userLoop b h clock s).1 ↔ NamesInSync b (userLoopRefresh b h clock s)) := by
  unfold userLoop userLoopRedraw NamesInSync
  simp only [oled_drawDisplay]
  split_ifs <;> simp

/-- C8 (as stated) fails: after `userSetup` and one `userLoop` 500 ms after boot the
state is reachable, the effect index is 0 and the cached effect name is empty, while
index 0 of the mode table decodes to `Solid`. -/
theorem reachable_namesInSync_counterexample :
    Reachable heltecBuild
        (userLoop heltecBuild homeHost (Millis.const 500) (userSetup heltecBuild bootState).1).1
      ∧ ¬ NamesInSync heltecBuild
        (userLoop heltecBuild homeHost (Millis.const 500) (userSetup heltecBuild bootState).1).1 := by
  refine ⟨Reachable.loop _ _ _ Reachable.setup, ?_⟩
  unfold NamesInSync
  decide

/-- C8 (amended): in every state reachable from `userSetup` by calls of
`userConnected` and `userLoop` in which `firstRun` is false, that is once an
`updateInfo` has run, `effectModeName` is `getStringFromJSON` of the mode table at
`effectModeIndex` and `effectPaletteName` is `getStringFromJSON` of the palette
table at `effectPaletteIndex`. -/
theorem reachable_namesInSync (b : Build) (s : State) (hreach : Reachable b s)
    (hf : s.oled_firstRun = false) : NamesInSync b s := by
  induction hreach with
  | setup => simp [userSetup] at hf
  | connected h s _ ih => exact updateInfo_namesInSync b h s ih
  | loop h clock s _ ih =>
    obtain ⟨h1, h2⟩ := userLoop_snapshot b h clock s
    rw [h2]
    exact userLoopRefresh_namesInSync b h clock s ih (h1 ▸ hf)

theorem reachable_namesInSync_witness :
    NamesInSync heltecBuild
      (userLoop heltecBuild homeHost (Millis.const 1500) (userSetup heltecBuild bootState).1).1 :=
  reachable_namesInSync heltecBuild _ (Reachable.loop _ _ _ Reachable.setup) (by decide)

/-! ## Quality estimator: order -/

/-- C13: `getWifiQuality` is monotonically non-decreasing over all integers: for every
`a ≤ b`, `getWifiQuality a ≤ getWifiQuality b`. -/
theorem getWifiQuality_monotone (a b : Int) (hab : a ≤ b) :
    getWifiQuality a ≤ getWifiQuality b := by
  simp only [getWifiQuality, toUInt8, wifiQualityLong]
  split_ifs <;> omega

theorem getWifiQuality_monotone_witness :
    getWifiQuality (-80) ≤ getWifiQuality (-60) :=
  getWifiQuality_monotone (-80) (-60) (by decide)

/-! ## Renderer: claims -/

set_option maxRecDepth 100000 in
theorem decimal_length_byte : ∀ n, n < 256 → (decimal n).length ≤ 3 := by
  decide

theorem IPAddress.toString_length (ip : IPAddress)
    (h0 : ip.b0 < 256) (h1 : ip.b1 < 256) (h2 : ip.b2 < 256) (h3 : ip.b3 < 256) :
    (IPAddress.toString ip).length ≤ 15 := by
  have l0 := decimal_length_byte ip.b0 h0
  have l1 := decimal_length_byte ip.b1 h1
  have l2 := decimal_length_byte ip.b2 h2
  have l3 := decimal_length_byte ip.b3 h3
  simp only [IPAddress.toString, List.length_append, List.length_cons]
  omega

/-- C11: for every snapshot whose address bytes are below 256 and whose lines fit the
128 bytes of `chBuffer`, `oled_drawDisplay` clears the surface, draws exactly six
text lines in this order, `Wifi:` and the ssid, `Signal strength:` and the decimal
`getWifiQuality` of the rssi and `%`, `IP:` and the dotted decimal address, `Mode:`
and the effect name, `Palette:` and the palette name, `Brightness:` and the decimal
brightness, and then submits the frame. -/
theorem oled_drawDisplay_lines (s : State)
    (hip : s.oled_knownIP.b0 < 256 ∧ s.oled_knownIP.b1 < 256
      ∧ s.oled_knownIP.b2 < 256 ∧ s.oled_knownIP.b3 < 256)
    (hfit : ("Wifi:".toList ++ s.oled_knownSSID).length < 128
      ∧ ("Mode:".toList ++ s.oled_knownEffectModeName).length < 128
      ∧ ("Palette:".toList ++ s.oled_knownEffectPaletteName).length < 128) :
    (oled_drawDisplay s).2 =
      [ OledCmd.clearBuffer,
        OledCmd.drawStr 0 0 ("Wifi:".toList ++ s.oled_knownSSID),
        OledCmd.drawStr 0 10
          ("Signal strength:".toList ++ decimal (getWifiQuality s.oled_knownRSSI)
            ++ "%".toList),
        OledCmd.drawStr 0 20 ("IP:".toList ++ IPAddress.toString s.oled_knownIP),
        OledCmd.drawStr 0 30 ("Mode:".toList ++ s.oled_knownEffectModeName),
        OledCmd.drawStr 0 40 ("Palette:".toList ++ s.oled_knownEffectPaletteName),
        OledCmd.drawStr 0 50 ("Brightness:".toList ++ decimal s.oled_knownBrightness),
        OledCmd.sendBuffer ] := by
  have _ := hfit
  have hlen := IPAddress.toString_length s.oled_knownIP hip.1 hip.2.1 hip.2.2.1 hip.2.2.2
  have htake : (IPAddress.toString s.oled_knownIP).take 79
      = IPAddress.toString s.oled_knownIP := List.take_of_length_le (by omega)
  simp only [oled_drawDisplay, htake]

theorem oled_drawDisplay_lines_witness :
    (oled_drawDisplay homeState).2 =
      [ OledCmd.clearBuffer,
        OledCmd.drawStr 0 0 "Wifi:Home".toList,
        OledCmd.drawStr 0 10 "Signal strength:60%".toList,
        OledCmd.drawStr 0 20 "IP:192.168.1.5".toList,
        OledCmd.drawStr 0 30 "Mode:Solid".toList,
        OledCmd.drawStr 0 40 "Palette:Party".toList,
        OledCmd.drawStr 0 50 "Brightness:128".toList,
        OledCmd.sendBuffer ] :=
  (oled_drawDisplay_lines homeState (by decide) (by decide)).trans (by decide)

/-! ## Display scheduler: throttle, sleep timeout and flags -/

theorem toULong_toLong (x : Nat) (h : x < 4294967296) : toULong (toLong x) = x := by
  simp only [toULong, toLong]
  split_ifs <;> omega

/-- When nothing is pending after the refresh step, `userLoop` does not render and
leaves `redrawRequired` and `lastRedrawTime` alone. -/
theorem userLoop_of_clean (b : Build) (h : Host) (clock : Millis) (s : State)
    (hr : (userLoopRefresh b h clock s).oled_redrawRequired = false) :
    ¬ rendered (userLoop b h clock s).2
      ∧ (userLoop b h clock s).1.oled_redrawRequired = false
      ∧ (userLoop b h clock s).1.oled_lastRedrawTime
          = (userLoopRefresh b h clock s).oled_lastRedrawTime := by
  unfold userLoop userLoopRedraw
  simp only [hr, Bool.false_eq_true, if_false, Bool.not_false, if_true, List.nil_append]
  split_ifs <;> simp [rendered, hr]

/-- When a redraw is pending after the refresh step, `userLoop` clears the flag and
stamps `lastRedrawTime` if the redraw interval has passed, and leaves both alone if
not. -/
theorem userLoop_of_pending_state (b : Build) (h : Host) (clock : Millis) (s : State)
    (hr : (userLoopRefresh b h clock s).oled_redrawRequired = true) :
    (OLED_REDRAW_RATE_MS
          < elapsed clock.redrawCheck (userLoopRefresh b h clock s).oled_lastRedrawTime →
        (userLoop b h clock s).1.oled_redrawRequired = false
          ∧ (userLoop b h clock s).1.oled_lastRedrawTime = toLong clock.redrawStamp)
      ∧ (¬ OLED_REDRAW_RATE_MS
          < elapsed clock.redrawCheck (userLoopRefresh b h clock s).oled_lastRedrawTime →
        (userLoop b h clock s).1.oled_redrawRequired = true
          ∧ (userLoop b h clock s).1.oled_lastRedrawTime
              = (userLoopRefresh b h clock s).oled_lastRedrawTime) := by
  unfold userLoop userLoopRedraw
  constructor
  · intro ht
    simp [hr, ht, oled_drawDisplay]
  · intro ht
    simp [hr, ht]

/-- C16: for every state and current time `now`, `userLoop` invokes `oled_drawDisplay`
if and only if `redrawRequired` is true after the refresh step and
`now - lastRedrawTime` exceeds 2000 ms; when it renders, `redrawRequired` becomes
false and `lastRedrawTime` becomes `now`; when it does not render, both are as the
refresh step left them. -/
theorem userLoop_redraw_throttle (b : Build) (h : Host) (s : State) (now : Nat)
    (hnow : now < 4294967296) :
    (rendered (userLoop b h (Millis.const now) s).2 ↔
        (userLoopRefresh b h (Millis.const now) s).oled_redrawRequired = true
          ∧ 2000 < elapsed now (userLoopRefresh b h (Millis.const now) s).oled_lastRedrawTime)
      ∧ (rendered (userLoop b h (Millis.const now) s).2 →
          (userLoop b h (Millis.const now) s).1.oled_redrawRequired = false
            ∧ (userLoop b h (Millis.const now) s).1.oled_lastRedrawTime = toLong now
            ∧ toULong (userLoop b h (Millis.const now) s).1.oled_lastRedrawTime = now)
      ∧ (¬ rendered (userLoop b h (Millis.const now) s).2 →
          (userLoop b h (Millis.const now) s).1.oled_redrawRequired
              = (userLoopRefresh b h (Millis.const now) s).oled_redrawRequired
            ∧ (userLoop b h (Millis.const now) s).1.oled_lastRedrawTime
              = (userLoopRefresh b h (Millis.const now) s).oled_lastRedrawTime) := by
  have hf := (userLoopRefresh_fields b h (Millis.const now) s).1
  cases hr : (userLoopRefresh b h (Millis.const now) s).oled_redrawRequired
  · obtain ⟨c1, c2, c3⟩ := userLoop_of_clean b h (Millis.const now) s hr
    exact ⟨⟨fun hx => absurd hx c1, fun hx => by simp at hx⟩,
      fun hx => absurd hx c1, fun _ => ⟨c2, c3⟩⟩
  · obtain ⟨-, p2, -⟩ := userLoop_of_pending b h (Millis.const now) s hr
    obtain ⟨q1, q2⟩ := userLoop_of_pending_state b h (Millis.const now) s hr
    rw [hf] at q1 q2 ⊢
    have hc : (Millis.const now).redrawCheck = now := rfl
    have hs : (Millis.const now).redrawStamp = now := rfl
    rw [hc] at p2 q1 q2
    rw [hs] at q1
    have h2000 : OLED_REDRAW_RATE_MS = 2000 := rfl
    rw [h2000] at p2 q1 q2
    refine ⟨⟨fun hx => ⟨rfl, p2.1 hx⟩, fun hx => p2.2 hx.2⟩, ?_, ?_⟩
    · intro hx
      obtain ⟨r1, r2⟩ := q1 (p2.1 hx)
      exact ⟨r1, r2, by rw [r2]; exact toULong_toLong now hnow⟩
    · intro hx
      exact q2 (fun ht => hx (p2.2 ht))

theorem userLoop_redraw_throttle_witness :
    rendered
        (userLoop heltecBuild { homeHost with bri := 10 } (Millis.const 401500) homeState).2
      ∧ (userLoop heltecBuild { homeHost with bri := 10 } (Millis.const 401500)
          homeState).1.oled_redrawRequired = false
      ∧ (userLoop heltecBuild { homeHost with bri := 10 } (Millis.const 401500)
          homeState).1.oled_lastRedrawTime = 401500 :=
  have key := userLoop_redraw_throttle heltecBuild { homeHost with bri := 10 } homeState
    401500 (by decide)
  have hr := key.1.2 (by decide)
  ⟨hr, (key.2.1 hr).1, (key.2.1 hr).2.1⟩

/-- C12: the code puts the display to sleep 4 minutes after the last redraw, with the
display awake and nothing pending: the timeout it uses is 2 minutes (120000 ms), not
the 5 minutes of the header comment. -/
theorem userLoop_sleeps_before_five_minutes :
    OLED_DISPLAY_SLEEP_TIMEOUT_MS = 120000
      ∧ homeState.oled_displayIsAsleep = false
      ∧ homeState.oled_redrawRequired = false
      ∧ elapsed 520000 homeState.oled_lastRedrawTime = 240000
      ∧ (userLoop heltecBuild homeHost (Millis.const 520000) homeState).2 = [OledCmd.sleepOn]
      ∧ (userLoop heltecBuild homeHost (Millis.const 520000) homeState).1.oled_displayIsAsleep
          = true := by
  decide

/-- C19: for every pre-state, host state and clock, after `userLoop` the flags
`displayIsAsleep` and `redrawRequired` are not both true. -/
theorem userLoop_not_asleep_and_pending (b : Build) (h : Host) (clock : Millis)
    (s : State) :
    ¬ ((userLoop b h clock s).1.oled_displayIsAsleep = true
        ∧ (userLoop b h clock s).1.oled_redrawRequired = true) := by
  rintro ⟨ha, hp⟩
  cases hr : (userLoopRefresh b h clock s).oled_redrawRequired
  · rw [(userLoop_of_clean b h clock s hr).2.1] at hp
    exact Bool.false_ne_true hp
  · rw [(userLoop_of_pending b h clock s hr).1] at ha
    exact Bool.false_ne_true ha

/-! ## Info refresher: first refresh and idempotence -/

theorem updateInfo_lastUpdateTime (b : Build) (h : Host) (s : State) :
    (updateInfo b h s).oled_lastUpdateTime = s.oled_lastUpdateTime := by
  rw [updateInfo_eq_refreshed]; exact (ssidEarlyWrite_fields b h s).2.2.2.1

/-- In the ESP32 build, for every pre-state with `firstRun` true and every host
state, after `updateInfo` the snapshot holds the current host values: the ssid (the
network name when connected, the sentinel when not), the rssi, the address (0.0.0.0
when the host is an access point), the brightness and the two indices; the two names
are the extractor's results for these indices, `redrawRequired` is true and
`firstRun` is false. -/
theorem updateInfo_first_run (b : Build) (h : Host) (s : State)
    (hb : b.ESP8266 = false) (hf : s.oled_firstRun = true) :
    (updateInfo b h s).oled_knownSSID
        = (if h.connected then h.SSID else "~NOT CONNECTED~".toList)
      ∧ (updateInfo b h s).oled_knownRSSI = h.RSSI
      ∧ (updateInfo b h s).oled_knownIP = (if h.apActive then ⟨0, 0, 0, 0⟩ else h.localIP)
      ∧ (updateInfo b h s).oled_knownBrightness = h.bri
      ∧ (updateInfo b h s).oled_knownEffectModeIndex = h.mode
      ∧ (updateInfo b h s).oled_knownEffectPaletteIndex = h.palette
      ∧ (updateInfo b h s).oled_knownEffectModeName
          = getStringFromJSON b.JSON_mode_names h.mode
      ∧ (updateInfo b h s).oled_knownEffectPaletteName
          = getStringFromJSON b.JSON_palette_names h.palette
      ∧ (updateInfo b h s).oled_redrawRequired = true
      ∧ (updateInfo b h s).oled_firstRun = false := by
  rw [updateInfo_eq_refreshed, ssidEarlyWrite_of_not_esp8266 b h s hb]
  simp [refreshed, hf, currentSSID, currentIP, hb, getEffectModeName, getEffectPaletteName]

theorem updateInfo_first_run_witness :
    (updateInfo heltecBuild homeHost (userSetup heltecBuild bootState).1).oled_knownSSID
        = "Home".toList
      ∧ (updateInfo heltecBuild homeHost
          (userSetup heltecBuild bootState).1).oled_knownEffectPaletteName = "Party".toList
      ∧ (updateInfo heltecBuild homeHost
          (userSetup heltecBuild bootState).1).oled_redrawRequired = true :=
  have key := updateInfo_first_run heltecBuild homeHost (userSetup heltecBuild bootState).1
    rfl rfl
  ⟨key.1, key.2.2.2.2.2.2.2.1.trans (by decide), key.2.2.2.2.2.2.2.2.1⟩

/-- C20: for every pre-state and host state, in either build, `updateInfo` applied
twice against the same host values leaves the same state as `updateInfo` applied
once, and `updateInfo` does not modify `displayIsAsleep`, `lastRedrawTime` or
`lastUpdateTime`. -/
theorem updateInfo_idempotent (b : Build) (h : Host) (s : State) :
    updateInfo b h (updateInfo b h s) = updateInfo b h s
      ∧ (updateInfo b h s).oled_displayIsAsleep = s.oled_displayIsAsleep
      ∧ (updateInfo b h s).oled_lastRedrawTime = s.oled_lastRedrawTime
      ∧ (updateInfo b h s).oled_lastUpdateTime = s.oled_lastUpdateTime := by
  refine ⟨?_, updateInfo_displayIsAsleep b h s, updateInfo_lastRedrawTime b h s,
    updateInfo_lastUpdateTime b h s⟩
  rw [updateInfo_eq_refreshed b h (updateInfo b h s), updateInfo_eq_refreshed b h s]
  cases hc : h.connected <;> cases he : b.ESP8266 <;>
    simp [refreshed, ssidEarlyWrite, qualifyingChange, currentSSID, hc, he]
  by_cases ha : h.apActive = true
  · by_cases hn : h.softAPSSID = [] <;> simp [hn, ha]
  · by_cases hn : h.SSID = [] <;> simp [hn, ha]

/-! ## No draw before the first refresh -/

theorem userLoop_lastUpdateTime (b : Build) (h : Host) (clock : Millis) (s : State) :
    (userLoop b h clock s).1.oled_lastUpdateTime
      = (userLoopRefresh b h clock s).oled_lastUpdateTime := by
  unfold userLoop userLoopRedraw
  simp only [oled_drawDisplay]
  split_ifs <;> simp

/-- What a call of `userLoop` with one clock reading does to a state in which both
time stamps are still 0: either the refresh runs, or
the call does not render and leaves the flag and the stamps as they are. -/
theorem userLoop_before_first_refresh (b : Build) (h : Host) (now : Nat) (s : State)
    (hu : s.oled_lastUpdateTime = 0) (hd : s.oled_lastRedrawTime = 0) :
    (userLoopRefresh b h (Millis.const now) s).oled_firstRun = false
      ∨ (userLoopRefresh b h (Millis.const now) s = s
          ∧ ¬ rendered (userLoop b h (Millis.const now) s).2
          ∧ (userLoop b h (Millis.const now) s).1.oled_lastUpdateTime = 0
          ∧ (userLoop b h (Millis.const now) s).1.oled_lastRedrawTime = 0) := by
  by_cases hupd : elapsed now s.oled_lastUpdateTime > OLED_UPDATE_RATE_MS
  · left
    have : userLoopRefresh b h (Millis.const now) s
        = { updateInfo b h s with oled_lastUpdateTime := toLong now } := by
      unfold userLoopRefresh
      exact if_pos hupd
    rw [this]
    exact updateInfo_firstRun b h s
  · right
    have hs : userLoopRefresh b h (Millis.const now) s = s := by
      unfold userLoopRefresh
      exact if_neg hupd
    have hlate : ¬ OLED_REDRAW_RATE_MS < elapsed now s.oled_lastRedrawTime := by
      rw [hu] at hupd
      rw [hd]
      simp only [OLED_UPDATE_RATE_MS, OLED_REDRAW_RATE_MS] at hupd ⊢
      omega
    have hut := userLoop_lastUpdateTime b h (Millis.const now) s
    rw [hs, hu] at hut
    refine ⟨hs, ?_, hut, ?_⟩
    · cases hr : s.oled_redrawRequired
      · exact (userLoop_of_clean b h (Millis.const now) s (by rw [hs]; exact hr)).1
      · intro hx
        exact hlate ((userLoop_of_pending b h (Millis.const now) s
          (by rw [hs]; exact hr)).2.1.1 hx)
    · cases hr : s.oled_redrawRequired
      · have := (userLoop_of_clean b h (Millis.const now) s (by rw [hs]; exact hr)).2.2
        rw [this, hs, hd]
      · have := ((userLoop_of_pending_state b h (Millis.const now) s
          (by rw [hs]; exact hr)).2 (by rw [hs]; exact hlate)).2
        rw [this, hs, hd]

theorem reachableOneReading_stamps (b : Build) (s : State)
    (hreach : ReachableOneReading b s) (hf : s.oled_firstRun = true) :
    s.oled_lastUpdateTime = 0 ∧ s.oled_lastRedrawTime = 0 := by
  induction hreach with
  | setup => exact ⟨rfl, rfl⟩
  | connected h s _ _ =>
    rw [userConnected, updateInfo_firstRun] at hf
    exact absurd hf Bool.false_ne_true
  | loop h now s _ ih =>
    have hsnap := (userLoop_snapshot b h (Millis.const now) s).1
    rw [hsnap] at hf
    cases hs : s.oled_firstRun
    · have : (userLoopRefresh b h (Millis.const now) s).oled_firstRun = false := by
        unfold userLoopRefresh
        split_ifs
        · exact updateInfo_firstRun b h s
        · exact hs
      rw [this] at hf
      exact absurd hf Bool.false_ne_true
    · obtain ⟨hu, hd⟩ := ih hs
      rcases userLoop_before_first_refresh b h now s hu hd with h1 | ⟨-, -, h3, h4⟩
      · rw [h1] at hf
        exact absurd hf Bool.false_ne_true
      · exact ⟨h3, h4⟩

/-- C18: in a run that starts with `userSetup` and goes on with calls of
`userConnected` and `userLoop`, each `userLoop` with one clock reading, a `userLoop`
that invokes `oled_drawDisplay` does so with `firstRun` false: the flag is false in
the state its refresh step leaves, which is the state the renderer draws. -/
theorem no_draw_while_firstRun (b : Build) (h : Host) (now : Nat) (s : State)
    (hreach : ReachableOneReading b s)
    (hdraw : rendered (userLoop b h (Millis.const now) s).2) :
    (userLoopRefresh b h (Millis.const now) s).oled_firstRun = false := by
  cases hs : s.oled_firstRun
  · unfold userLoopRefresh
    split_ifs
    · exact updateInfo_firstRun b h s
    · exact hs
  · obtain ⟨hu, hd⟩ := reachableOneReading_stamps b s hreach hs
    rcases userLoop_before_first_refresh b h now s hu hd with h1 | ⟨-, h2, -, -⟩
    · exact h1
    · exact absurd hdraw h2

theorem no_draw_while_firstRun_witness :
    rendered
        (userLoop heltecBuild homeHost (Millis.const 2500) (userSetup heltecBuild bootState).1).2
      ∧ (userLoopRefresh heltecBuild homeHost (Millis.const 2500)
          (userSetup heltecBuild bootState).1).oled_firstRun = false :=
  ⟨by decide,
   no_draw_while_firstRun heltecBuild homeHost 2500 (userSetup heltecBuild bootState).1
     ReachableOneReading.setup (by decide)⟩

/-- The single clock reading matters: with a reading of 900 ms at the refresh test
and of 2500 ms at the redraw test of the same first `userLoop`, the renderer runs
while `firstRun` is still true. -/
theorem draw_while_firstRun_two_readings :
    rendered (userLoop heltecBuild homeHost ⟨900, 900, 2500, 2500, 2500⟩
        (userSetup heltecBuild bootState).1).2
      ∧ (userLoopRefresh heltecBuild homeHost ⟨900, 900, 2500, 2500, 2500⟩
          (userSetup heltecBuild bootState).1).oled_firstRun = true := by
  decide

/-! ## Extractor: reference form -/

theorem selected_comma (index : Nat) (rest : List Char) (q : Nat) (ins : Bool) :
    selected index (',' :: rest) q ins
      = if ins = true ∧ (q + 1) % 256 = index then
          ',' :: selected index rest ((q + 1) % 256) ins
        else selected index rest ((q + 1) % 256) ins := by
  rw [selected]; simp

theorem selected_other (index : Nat) (c : Char) (rest : List Char) (q : Nat) (ins : Bool)
    (h1 : c ≠ '"') (h2 : c ≠ '[') (h3 : c ≠ ']') (h4 : c ≠ ',') :
    selected index (c :: rest) q ins
      = if ins = true ∧ q = index then c :: selected index rest q ins
        else selected index rest q ins := by
  rw [selected]; simp [h1, h2, h3, h4]

theorem keptAt_at_split (index : Nat) (pre : List Char) (c : Char) (rest : List Char) :
    keptAt (pre ++ c :: rest) index pre.length c
      = (c != '"' && c != '[' && c != ']'
          && decide (pre.count '"' % 2 = 1)
          && decide ((pre ++ [c]).count ',' = index)) := by
  have h1 : (pre ++ c :: rest).take pre.length = pre := List.take_left' rfl
  have h2 : (pre ++ c :: rest).take (pre.length + 1) = pre ++ [c] := by
    rw [List.append_cons]
    exact List.take_left' (by simp)
  simp only [keptAt, h1, h2]

theorem enumFrom_filter_keptAt (index : Nat) (rest : List Char) :
    ∀ pre : List Char, (pre ++ rest).count ',' ≤ 255 →
      ((List.enumFrom pre.length rest).filter
          (fun pc => keptAt (pre ++ rest) index pc.1 pc.2)).map Prod.snd
        = selected index rest (pre.count ',') (decide (pre.count '"' % 2 = 1)) := by
  induction rest with
  | nil => intro pre _; simp [selected]
  | cons c r ih =>
    intro pre hc
    have hlen : (pre ++ [c]).length = pre.length + 1 := by simp
    have hsplit : pre ++ c :: r = (pre ++ [c]) ++ r := List.append_cons pre c r
    have ih1 := ih (pre ++ [c]) (by rw [← hsplit]; exact hc)
    rw [hlen, ← hsplit] at ih1
    rw [List.enumFrom_cons, List.filter_cons]
    simp only [keptAt_at_split]
    by_cases hq : c = '"'
    · subst hq
      rw [selected_quote]
      simp only [bne_self_eq_false, Bool.false_and, Bool.false_eq_true, if_false]
      rw [ih1]
      congr 1
      · simp [List.count_append]
      · simp only [List.count_append, List.count_singleton]
        cases hd : decide (pre.count '"' % 2 = 1) <;> simp at hd ⊢ <;> omega
    · by_cases ho : c = '['
      · subst ho
        rw [selected_open]
        simp only [bne_self_eq_false, Bool.false_and, Bool.and_false, Bool.false_eq_true,
          if_false]
        rw [ih1]
        simp [List.count_append]
      · by_cases hcl : c = ']'
        · subst hcl
          rw [selected_close]
          simp only [bne_self_eq_false, Bool.false_and, Bool.and_false, Bool.false_eq_true,
            if_false]
          rw [ih1]
          simp [List.count_append]
        · have hquote : (pre ++ [c]).count '"' = pre.count '"' := by
            simp [List.count_append, List.count_singleton, Ne.symm hq]
          by_cases hcm : c = ','
          · subst hcm
            have hcount : (pre ++ [',']).count ',' = pre.count ',' + 1 := by
              simp [List.count_append]
            have hmod : (pre.count ',' + 1) % 256 = pre.count ',' + 1 := by
              apply Nat.mod_eq_of_lt
              have : pre.count ',' + 1 ≤ (pre ++ ',' :: r).count ',' := by
                simp [List.count_append]
              omega
            rw [apply_ite (List.map Prod.snd), List.map_cons, selected_comma, hmod, ih1,
              hquote, hcount]
            by_cases hp : pre.count '"' % 2 = 1
            · by_cases hi : pre.count ',' + 1 = index
              · simp [hp, hi]
              · simp [hp, hi]
            · simp [hp]
          · have hcount : (pre ++ [c]).count ',' = pre.count ',' := by
              simp [List.count_append, List.count_singleton, Ne.symm hcm]
            rw [apply_ite (List.map Prod.snd), List.map_cons,
              selected_other index c r _ _ hq ho hcl hcm, ih1, hquote, hcount]
            by_cases hp : pre.count '"' % 2 = 1
            · by_cases hi : pre.count ',' = index
              · simp [hp, hi, hq, ho, hcl]
              · simp [hp, hi]
            · simp [hp]

/-- C15: for every buffer that holds at most 255 commas and every index,
`getStringFromJSON` is the reference form: in the order of their positions, exactly
the characters that are no double quote and no bracket, have an odd number of double
quotes before them, and have `index` commas at positions up to and including their
own, commas inside quotes counted as well. -/
theorem getStringFromJSON_eq_reference (buf : List Char) (index : Nat)
    (hc : buf.count ',' ≤ 255) :
    getStringFromJSON buf index = extractorReference buf index := by
  rw [getStringFromJSON_eq_selected, extractorReference]
  have key := enumFrom_filter_keptAt index buf [] (by simpa using hc)
  simp only [List.nil_append, List.length_nil, List.count_nil, Nat.zero_mod, zero_ne_one,
    decide_False] at key
  exact key.symm

theorem getStringFromJSON_eq_reference_witness :
    getStringFromJSON "[\"a,b\",\"c\"]".toList 0 = "a".toList
      ∧ getStringFromJSON "[\"a,b\",\"c\"]".toList 1 = ",b".toList
      ∧ getStringFromJSON "[\"a,b\",\"c\"]".toList 2 = "c".toList
      ∧ extractorReference "[\"a,b\",\"c\"]".toList 1 = ",b".toList :=
  ⟨by decide, by decide, by decide,
   (getStringFromJSON_eq_reference "[\"a,b\",\"c\"]".toList 1 (by decide)).symm.trans
     (by decide)⟩

/-! ## Extractor: scanning past the requested entry -/

theorem selected_of_gt (index : Nat) (buf : List Char) :
    ∀ (q : Nat) (ins : Bool), index < q → q + buf.count ',' ≤ 255 →
      selected index buf q ins = [] := by
  induction buf with
  | nil => intro q ins _ _; simp [selected]
  | cons c rest ih =>
    intro q ins hq hc
    by_cases h1 : c = '"'
    · subst h1
      rw [selected_quote]
      exact ih q _ hq (by simpa using hc)
    · by_cases h2 : c = '['
      · subst h2
        rw [selected_open]
        exact ih q _ hq (by simpa using hc)
      · by_cases h3 : c = ']'
        · subst h3
          rw [selected_close]
          exact ih q _ hq (by simpa using hc)
        · by_cases h4 : c = ','
          · subst h4
            simp only [List.count_cons_self] at hc
            have hmod : (q + 1) % 256 = q + 1 := Nat.mod_eq_of_lt (by omega)
            have hne : ¬ q + 1 = index := by omega
            rw [selected_comma, hmod]
            simp only [hne, and_false, if_false]
            exact ih (q + 1) ins (by omega) (by omega)
          · rw [List.count_cons_of_ne (Ne.symm h4)] at hc
            have hne : ¬ q = index := by omega
            rw [selected_other index c rest q ins h1 h2 h3 h4]
            simp only [hne, and_false, if_false]
            exact ih q ins hq hc

theorem selected_upToComma (index : Nat) (buf : List Char) :
    ∀ (q : Nat) (ins : Bool), q ≤ index → q + buf.count ',' ≤ 255 →
      selected index buf q ins = selected index (upToComma (index - q + 1) buf) q ins := by
  induction buf with
  | nil => intro q ins _ _; simp [upToComma]
  | cons c rest ih =>
    intro q ins hq hc
    by_cases h4 : c = ','
    · subst h4
      simp only [List.count_cons_self] at hc
      have hmod : (q + 1) % 256 = q + 1 := Nat.mod_eq_of_lt (by omega)
      have hup : upToComma (index - q + 1) (',' :: rest) = ',' :: upToComma (index - q) rest := by
        simp [upToComma]
      rw [hup, selected_comma, selected_comma, hmod]
      by_cases hlt : q + 1 ≤ index
      · have hk : index - q = index - (q + 1) + 1 := by omega
        rw [hk, ← ih (q + 1) ins hlt (by omega)]
      · have hqi : q = index := by omega
        have h0 : index - q = 0 := by omega
        have hnil : upToComma 0 rest = [] := by
          cases rest <;> rfl
        rw [h0, hnil, selected_of_gt index rest (q + 1) ins (by omega) (by omega)]
        simp [selected]
    · rw [List.count_cons_of_ne (Ne.symm h4)] at hc
      have hup : upToComma (index - q + 1) (c :: rest)
          = c :: upToComma (index - q + 1) rest := by
        simp [upToComma, h4]
      rw [hup]
      by_cases h1 : c = '"'
      · subst h1
        rw [selected_quote, selected_quote, ← ih q _ hq hc]
      · by_cases h2 : c = '['
        · subst h2
          rw [selected_open, selected_open, ← ih q _ hq hc]
        · by_cases h3 : c = ']'
          · subst h3
            rw [selected_close, selected_close, ← ih q _ hq hc]
          · rw [selected_other index c _ q ins h1 h2 h3 h4,
              selected_other index c _ q ins h1 h2 h3 h4, ← ih q ins hq hc]

/-- For a buffer that holds at most 255 commas the characters after the
`(index+1)`-th comma do not affect the result, although the scan reads them. -/
theorem getStringFromJSON_upToComma (buf : List Char) (index : Nat)
    (hc : buf.count ',' ≤ 255) :
    getStringFromJSON buf index = getStringFromJSON (upToComma (index + 1) buf) index := by
  rw [getStringFromJSON_eq_selected, getStringFromJSON_eq_selected]
  exact selected_upToComma index buf 0 false (Nat.zero_le _) (by omega)

set_option maxRecDepth 200000 in
/-- C14: the scan does not stop after the comma that ends the requested entry. In the
literal of `wrapArray`, with 256 commas, the buffer truncated after its first comma
is `["a",` and yields `a` at index 0, while the whole buffer yields `ab`: the 8-bit
comma count is 0 again when the last entry is read, and that entry is appended. -/
theorem getStringFromJSON_scans_to_the_end :
    (jsonLiteral wrapArray).count ',' = 256
      ∧ upToComma (0 + 1) (jsonLiteral wrapArray) = "[\"a\",".toList
      ∧ getStringFromJSON (upToComma (0 + 1) (jsonLiteral wrapArray)) 0 = "a".toList
      ∧ getStringFromJSON (jsonLiteral wrapArray) 0 = "ab".toList := by
  refine ⟨by decide, by decide, by decide, by decide⟩

/-! ## The connected branch with `ESP8266` defined

With `ESP8266` defined, line 178 assigns the network name to `oled_knownSSID` where
the other branch (line 180) assigns it to `currentSSID`. The local `currentSSID`
stays empty, the comparison of line 186 finds it different from the name just
stored, empties the snapshot's ssid and sets `redrawRequired`. -/

/-- With `ESP8266` defined, every refresh of a connected host whose network name is
not empty sets `redrawRequired`, whatever the snapshot held. -/
theorem updateInfo_redraw_always_esp8266 (b : Build) (h : Host) (s : State)
    (hb : b.ESP8266 = true) (hc : h.connected = true)
    (hn : (if h.apActive then h.softAPSSID else h.SSID) ≠ []) :
    (updateInfo b h s).oled_redrawRequired = true := by
  rw [updateInfo_eq_refreshed]
  cases ha : h.apActive
  · rw [ha] at hn
    simp only [Bool.false_eq_true, if_false] at hn
    simp [refreshed, ssidEarlyWrite, qualifyingChange, currentSSID, hb, hc, ha, hn]
  · rw [ha] at hn
    simp only [if_true] at hn
    simp [refreshed, ssidEarlyWrite, qualifyingChange, currentSSID, hb, hc, ha, hn]

/-- C17: with `ESP8266` defined the first refresh does not store the network name.
From the state `userSetup` leaves (`firstRun` true) and the connected host `homeHost`
with network `Home`, `updateInfo` leaves an empty ssid in the snapshot, where the
build without `ESP8266` stores `Home`; the other fields hold the host values. -/
theorem updateInfo_first_run_esp8266 :
    (userSetup esp8266Build bootState).1.oled_firstRun = true
      ∧ homeHost.connected = true
      ∧ homeHost.SSID = "Home".toList
      ∧ (updateInfo esp8266Build homeHost (userSetup esp8266Build bootState).1).oled_knownSSID
          = []
      ∧ (updateInfo esp8266Build homeHost (userSetup esp8266Build bootState).1).oled_knownSSID
          ≠ homeHost.SSID
      ∧ (updateInfo heltecBuild homeHost (userSetup heltecBuild bootState).1).oled_knownSSID
          = homeHost.SSID
      ∧ (updateInfo esp8266Build homeHost
          (userSetup esp8266Build bootState).1).oled_knownBrightness = homeHost.bri := by
  decide

end HeltecOLED
